import Mathlib

/-!
Verification of the multi-method risk-scoring engine of the
risk29-dashboard repository.

The engine (scripts/methods/ and scripts/calculate_risk.py) is pure Python
over dictionaries of floats.  We embed it shallowly:

* an indicator mapping `Dict[str, float]` becomes `String → Option ℚ`
  (rational numbers model the real-valued arithmetic of the spec;
  all constants in the source are exact decimal literals);
* a category-score dictionary becomes an association list
  `List (Category × ℚ)` built in the same insertion order as the Python
  dict, so that key-set claims are meaningful;
* the `try/except` fallback of the batch entry point is modelled with
  `Option`: `none` stands for the method raising, and the handler branch
  substitutes the weighted-average result, exactly as the source does.
-/

namespace Risk29

/-- An indicator mapping: indicator id to its 0-100 score, `none` when the
indicator is absent from the dictionary. -/
abbrev Indicators := String → Option ℚ

/-- The five fixed categories of the engine. `macroCat` renders the source
category key "macro" (`macro` is reserved in Lean). -/
inductive Category where
  | liquidity
  | credit
  | macroCat
  | valuation
  | technical
  deriving DecidableEq, Repr

/-- Category scores, an association list in the dict's insertion order. -/
abbrev Scores := List (Category × ℚ)

/-- A strategy result: `(overall_score, category_scores)`. -/
abbrev RiskResult := ℚ × Scores

/-- The five categories in the order the source tables declare them. -/
def CATEGORIES : List Category :=
  [.liquidity, .credit, .macroCat, .valuation, .technical]

/-- First-match lookup in a category-score association list. -/
def lookupCat : Scores → Category → Option ℚ
  | [], _ => none
  | p :: rest, c => if p.1 = c then some p.2 else lookupCat rest c

/-- Total getter for a category score (0 when the key is missing). -/
def catScore (scores : Scores) (c : Category) : ℚ :=
  (lookupCat scores c).getD 0

/-- INDICATOR_WEIGHTS["liquidity"] from scripts/methods/weighted_average.py. -/
def liquidityWeights : List (String × ℚ) :=
  [("M2SL", 0.30), ("WALCL", 0.25), ("RRPONTSYD", 0.30), ("SOFR", 0.15)]

/-- INDICATOR_WEIGHTS["credit"] from scripts/methods/weighted_average.py. -/
def creditWeights : List (String × ℚ) :=
  [("DGS10", 0.15), ("BAMLH0A0HYM2", 0.20), ("DRTSCILM", 0.10),
   ("YIELD_CURVE", 0.30), ("CONSUMER_DELINQ", 0.15), ("MORTGAGE_DELINQ", 0.10)]

/-- INDICATOR_WEIGHTS["macro"] from scripts/methods/weighted_average.py. -/
def macroWeights : List (String × ℚ) :=
  [("UNRATE", 0.15), ("CPIAUCSL", 0.15), ("GDP", 0.15), ("SAHM_RULE", 0.15),
   ("HOUSING_STARTS", 0.10), ("RETAIL_SALES", 0.15), ("INDPRO", 0.075),
   ("PAYEMS", 0.075)]

/-- INDICATOR_WEIGHTS["valuation"] from scripts/methods/weighted_average.py. -/
def valuationWeights : List (String × ℚ) :=
  [("NCBEILQ027S", 0.60), ("NASDAQCOM", 0.40)]

/-- INDICATOR_WEIGHTS["technical"] from scripts/methods/weighted_average.py. -/
def technicalWeights : List (String × ℚ) :=
  [("VIXCLS", 0.40), ("DCOILWTICO", 0.30), ("DXY", 0.30)]

/-- The INDICATOR_WEIGHTS table of scripts/methods/weighted_average.py,
category by category in declaration order. -/
def INDICATOR_WEIGHTS : List (Category × List (String × ℚ)) :=
  [(.liquidity, liquidityWeights), (.credit, creditWeights),
   (.macroCat, macroWeights), (.valuation, valuationWeights),
   (.technical, technicalWeights)]

/-- The weight table owned by one category (the rows of INDICATOR_WEIGHTS
as a function). -/
def tableOf : Category → List (String × ℚ)
  | .liquidity => liquidityWeights
  | .credit => creditWeights
  | .macroCat => macroWeights
  | .valuation => valuationWeights
  | .technical => technicalWeights

/-- The accumulation loop of `calculate_weighted_average`: walks the weight
table left to right, adding `value * weight` to the numerator and `weight`
to the denominator for each indicator present in the input. -/
def weightedLoop (ind : Indicators) : List (String × ℚ) → ℚ → ℚ → ℚ × ℚ
  | [], num, den => (num, den)
  | (i, w) :: rest, num, den =>
    match ind i with
    | some v => weightedLoop ind rest (num + v * w) (den + w)
    | none => weightedLoop ind rest num den

/-- The per-category body of `calculate_weighted_average`: renormalized
weighted average of the present indicators, 50.0 when `total_weight` is not
positive. -/
def categoryWeightedScore (ind : Indicators) (tbl : List (String × ℚ)) : ℚ :=
  if 0 < (weightedLoop ind tbl 0 0).2
  then (weightedLoop ind tbl 0 0).1 / (weightedLoop ind tbl 0 0).2
  else 50

/-- `calculate_weighted_average` of scripts/methods/weighted_average.py. -/
def calculate_weighted_average (ind : Indicators) : RiskResult :=
  let category_scores := INDICATOR_WEIGHTS.map fun p =>
    (p.1, categoryWeightedScore ind p.2)
  ((category_scores.map Prod.snd).sum / (category_scores.length : ℚ),
   category_scores)

/-- The CATEGORY_INDICATORS table local to `calculate_simple_average` in
scripts/methods/simple_average.py. -/
def CATEGORY_INDICATORS : List (Category × List String) :=
  [(.liquidity, ["M2SL", "WALCL", "RRPONTSYD", "SOFR"]),
   (.credit, ["DGS10", "BAMLH0A0HYM2", "DRTSCILM", "YIELD_CURVE",
              "CONSUMER_DELINQ", "MORTGAGE_DELINQ"]),
   (.macroCat, ["UNRATE", "CPIAUCSL", "GDP", "SAHM_RULE", "HOUSING_STARTS",
                "RETAIL_SALES", "INDPRO", "PAYEMS"]),
   (.valuation, ["NCBEILQ027S", "NASDAQCOM"]),
   (.technical, ["VIXCLS", "DCOILWTICO", "DXY"])]

/-- The per-category body of `calculate_simple_average`: plain mean of the
present indicators, 50.0 when the collected list is empty. -/
def categorySimpleScore (ind : Indicators) (ids : List String) : ℚ :=
  if (ids.filterMap ind).isEmpty then 50
  else (ids.filterMap ind).sum / ((ids.filterMap ind).length : ℚ)

/-- `calculate_simple_average` of scripts/methods/simple_average.py. -/
def calculate_simple_average (ind : Indicators) : RiskResult :=
  let category_scores := CATEGORY_INDICATORS.map fun p =>
    (p.1, categorySimpleScore ind p.2)
  ((category_scores.map Prod.snd).sum / (category_scores.length : ℚ),
   category_scores)

/-- `calculate_time_decay_multiplier` of
ready_to_paste_package/scripts/methods/time_decay_momentum.py. -/
def calculate_time_decay_multiplier (indicator_value : ℚ)
    (indicator_id : String) : ℚ :=
  if indicator_id = "VIXCLS" then
    if indicator_value > 60 then 1.3
    else if indicator_value > 40 then 1.5
    else if indicator_value > 30 then 1.2
    else 1.0
  else if indicator_id = "YIELD_CURVE" then
    if indicator_value > 60 then 1.3
    else if indicator_value > 50 then 1.5
    else if indicator_value > 30 then 1.2
    else 1.0
  else if indicator_id = "SAHM_RULE" then
    if indicator_value > 60 then 1.3
    else if indicator_value > 40 then 1.5
    else if indicator_value > 30 then 1.2
    else 1.0
  else if indicator_id = "BAMLH0A0HYM2" then
    if indicator_value > 60 then 1.3
    else if indicator_value > 40 then 1.5
    else 1.0
  else 1.0

/-- The adjusted value computed in the loop of `calculate_time_decay_momentum`:
`min(value * multiplier, 100.0)`. -/
def adjustedValue (v : ℚ) (i : String) : ℚ :=
  min (v * calculate_time_decay_multiplier v i) 100

/-- The adjusted-indicators dictionary built by
`calculate_time_decay_momentum`: same keys, each value capped-scaled. -/
def timeDecayAdjust (ind : Indicators) : Indicators :=
  fun i => (ind i).map fun v => adjustedValue v i

/-- `calculate_time_decay_momentum` of
ready_to_paste_package/scripts/methods/time_decay_momentum.py. -/
def calculate_time_decay_momentum (ind : Indicators) : RiskResult :=
  calculate_weighted_average (timeDecayAdjust ind)

/-- The five market regimes of scripts/methods/regime_adaptive.py. -/
inductive MarketRegime where
  | crisis
  | bear_market
  | bubble
  | calm
  | normal
  deriving DecidableEq, Repr

/-- `detect_market_regime` of scripts/methods/regime_adaptive.py. -/
def detect_market_regime (ind : Indicators) : MarketRegime :=
  let vix := (ind "VIXCLS").getD 25.0
  let yield_curve := (ind "YIELD_CURVE").getD 20.0
  let valuation := (ind "NCBEILQ027S").getD 70.0
  let credit := (ind "BAMLH0A0HYM2").getD 35.0
  if vix > 40 ∨ credit > 60 then .crisis
  else if yield_curve > 50 ∧ credit > 40 then .bear_market
  else if valuation > 80 ∧ vix < 20 then .bubble
  else if vix < 20 ∧ credit < 35 then .calm
  else .normal

/-- The REGIME_CATEGORY_WEIGHTS table of scripts/methods/regime_adaptive.py
as a total function (the source always finds both keys). -/
def REGIME_CATEGORY_WEIGHTS : MarketRegime → Category → ℚ
  | .crisis, .liquidity => 0.25
  | .crisis, .credit => 0.30
  | .crisis, .macroCat => 0.20
  | .crisis, .valuation => 0.10
  | .crisis, .technical => 0.15
  | .bear_market, .liquidity => 0.20
  | .bear_market, .credit => 0.30
  | .bear_market, .macroCat => 0.25
  | .bear_market, .valuation => 0.15
  | .bear_market, .technical => 0.10
  | .bubble, .liquidity => 0.15
  | .bubble, .credit => 0.15
  | .bubble, .macroCat => 0.15
  | .bubble, .valuation => 0.40
  | .bubble, .technical => 0.15
  | .calm, .liquidity => 0.15
  | .calm, .credit => 0.15
  | .calm, .macroCat => 0.20
  | .calm, .valuation => 0.35
  | .calm, .technical => 0.15
  | .normal, .liquidity => 0.20
  | .normal, .credit => 0.20
  | .normal, .macroCat => 0.20
  | .normal, .valuation => 0.20
  | .normal, .technical => 0.20

/-- `calculate_regime_adaptive` of scripts/methods/regime_adaptive.py: the
same category loop as weighted average, then a regime-weighted overall sum. -/
def calculate_regime_adaptive (ind : Indicators) : RiskResult :=
  let regime := detect_market_regime ind
  let category_scores := INDICATOR_WEIGHTS.map fun p =>
    (p.1, categoryWeightedScore ind p.2)
  ((category_scores.map fun p =>
      p.2 * REGIME_CATEGORY_WEIGHTS regime p.1).sum,
   category_scores)

/-- The three market states of
ready_to_paste_package/scripts/methods/meta_ensemble.py. -/
inductive MarketState where
  | crisis
  | calm
  | normal
  deriving DecidableEq, Repr

/-- The crisis-score accumulation inside `detect_market_state` of
ready_to_paste_package/scripts/methods/meta_ensemble.py. -/
def crisisScore (ind : Indicators) : ℕ :=
  let vix := (ind "VIXCLS").getD 25.0
  let yield_curve := (ind "YIELD_CURVE").getD 20.0
  let credit := (ind "BAMLH0A0HYM2").getD 35.0
  let sahm := (ind "SAHM_RULE").getD 15.0
  (if vix > 35 then 2 else if vix > 25 then 1 else 0)
    + (if yield_curve > 55 then 2 else if yield_curve > 40 then 1 else 0)
    + (if credit > 50 then 2 else if credit > 40 then 1 else 0)
    + (if sahm > 50 then 2 else if sahm > 30 then 1 else 0)

/-- `detect_market_state` of
ready_to_paste_package/scripts/methods/meta_ensemble.py. -/
def detect_market_state (ind : Indicators) : MarketState :=
  let vix := (ind "VIXCLS").getD 25.0
  if crisisScore ind ≥ 3 then .crisis
  else if crisisScore ind ≤ 1 ∧ vix < 20 then .calm
  else .normal

/-- `calculate_meta_ensemble` of
ready_to_paste_package/scripts/methods/meta_ensemble.py. -/
def calculate_meta_ensemble (ind : Indicators) : RiskResult :=
  match detect_market_state ind with
  | .crisis => calculate_time_decay_momentum ind
  | .calm => calculate_regime_adaptive ind
  | .normal => calculate_time_decay_momentum ind

/-- The method list walked by `calculate_all_methods` in
scripts/calculate_risk.py (also the recognized names of
`calculate_risk_score`). -/
def METHOD_NAMES : List String :=
  ["simple_average", "weighted_average", "time_decay_momentum",
   "regime_adaptive", "meta_ensemble"]

/-- `calculate_risk_score` of scripts/calculate_risk.py: dispatch on the
method name, defaulting to time-decay momentum for unknown names. -/
def calculate_risk_score (ind : Indicators) (method : String) : RiskResult :=
  if method = "simple_average" then calculate_simple_average ind
  else if method = "weighted_average" then calculate_weighted_average ind
  else if method = "time_decay_momentum" then calculate_time_decay_momentum ind
  else if method = "regime_adaptive" then calculate_regime_adaptive ind
  else if method = "meta_ensemble" then calculate_meta_ensemble ind
  else calculate_time_decay_momentum ind

/-- First-match lookup in a batch-result association list. -/
def lookupMethod : List (String × RiskResult) → String → Option RiskResult
  | [], _ => none
  | p :: rest, m => if p.1 = m then some p.2 else lookupMethod rest m

/-- The body of `calculate_all_methods` of scripts/calculate_risk.py with the
`try/except` made explicit: `impl m ind = none` stands for method `m`
raising, and that slot is then filled with the weighted-average result, as
the `except` branch does. -/
def calculate_all_methods_with (impl : String → Indicators → Option RiskResult)
    (ind : Indicators) : List (String × RiskResult) :=
  METHOD_NAMES.map fun m =>
    (m, match impl m ind with
        | some r => r
        | none => calculate_weighted_average ind)

/-- `calculate_all_methods` of scripts/calculate_risk.py: every method call
goes through `calculate_risk_score`, which is total in this embedding, so no
slot ever falls back in the non-faulting run. -/
def calculate_all_methods (ind : Indicators) : List (String × RiskResult) :=
  calculate_all_methods_with (fun m i => some (calculate_risk_score i m)) ind

/-! Spec-side definitions, written from the words of the specification so
that the code-side functions above can be compared against them. -/

/-- The entries of a weight table whose indicator is present in the input
(the sentence "indicators present in both the input and the weight
table"). -/
def presentEntries (ind : Indicators) (tbl : List (String × ℚ)) :
    List (String × ℚ) :=
  tbl.filter fun p => (ind p.1).isSome

/-- Spec formula for a category score: sum of value * weight over the
present indicators divided by the sum of their weights, 50.0 when no
indicator of the table is present. -/
def specWeightedCategoryScore (ind : Indicators)
    (tbl : List (String × ℚ)) : ℚ :=
  if (presentEntries ind tbl).isEmpty then 50
  else ((presentEntries ind tbl).map fun p => (ind p.1).getD 0 * p.2).sum
    / ((presentEntries ind tbl).map Prod.snd).sum

/-- Spec bands for the VIXCLS time-decay multiplier: v > 60 gives 1.3,
40 < v <= 60 gives 1.5, 30 < v <= 40 gives 1.2, otherwise 1.0. -/
def specVIXMultiplier (v : ℚ) : ℚ :=
  if v > 60 then 1.3
  else if 40 < v ∧ v ≤ 60 then 1.5
  else if 30 < v ∧ v ≤ 40 then 1.2
  else 1

/-- Spec points for one market-state indicator: 2 above the high threshold,
1 above the lower threshold, 0 otherwise. -/
def awardPoints (v high low : ℚ) : ℕ :=
  if v > high then 2 else if v > low then 1 else 0

/-- Spec crisis score: the four indicators with their defaults
(25.0, 20.0, 35.0, 15.0), high thresholds (35, 55, 50, 50) and lower
thresholds (25, 40, 40, 30). -/
def specCrisisScore (ind : Indicators) : ℕ :=
  awardPoints ((ind "VIXCLS").getD 25.0) 35 25
    + awardPoints ((ind "YIELD_CURVE").getD 20.0) 55 40
    + awardPoints ((ind "BAMLH0A0HYM2").getD 35.0) 50 40
    + awardPoints ((ind "SAHM_RULE").getD 15.0) 50 30

/-! Concrete inputs used by the example sentences of the specification. -/

/-- The input containing only M2SL = 80. -/
def m2slOnly : Indicators := fun s => if s = "M2SL" then some 80 else none

/-- The market-state example VIXCLS 45, YIELD_CURVE 60, BAMLH0A0HYM2 55,
SAHM_RULE 55. -/
def stateEx1 : Indicators := fun s =>
  if s = "VIXCLS" then some 45
  else if s = "YIELD_CURVE" then some 60
  else if s = "BAMLH0A0HYM2" then some 55
  else if s = "SAHM_RULE" then some 55
  else none

/-- The market-state example with all four classifier indicators at 10. -/
def stateEx2 : Indicators := fun s =>
  if s = "VIXCLS" then some 10
  else if s = "YIELD_CURVE" then some 10
  else if s = "BAMLH0A0HYM2" then some 10
  else if s = "SAHM_RULE" then some 10
  else none

/-- The input containing only VIXCLS = 45. -/
def vixOnly45 : Indicators := fun s => if s = "VIXCLS" then some 45 else none

/-- The everywhere-absent indicator mapping. -/
def emptyInd : Indicators := fun _ => none

/-- A method table in which exactly `regime_adaptive` raises, used to
exercise the batch fallback. -/
def failImpl : String → Indicators → Option RiskResult := fun m i =>
  if m = "regime_adaptive" then none else some (calculate_risk_score i m)

/-! Helper lemmas. -/

/-- The accumulation loop returns the accumulators plus the sums over the
present entries of the table. -/
theorem weightedLoop_spec (ind : Indicators) :
    ∀ (tbl : List (String × ℚ)) (n d : ℚ),
      weightedLoop ind tbl n d
        = (n + ((presentEntries ind tbl).map fun p =>
              (ind p.1).getD 0 * p.2).sum,
           d + ((presentEntries ind tbl).map Prod.snd).sum) := by
  intro tbl
  induction tbl with
  | nil => intro n d; simp [weightedLoop, presentEntries]
  | cons p rest ih =>
    intro n d
    obtain ⟨i, w⟩ := p
    cases hc : ind i with
    | none => simp [weightedLoop, hc, ih, presentEntries]
    | some v =>
      simp [weightedLoop, hc, ih, presentEntries, List.filter_cons,
        Prod.ext_iff]
      constructor <;> ring

/-- The code's category score agrees with the spec formula whenever all the
weights of the table are positive (as they are in every source table). -/
theorem categoryWeightedScore_eq_spec (ind : Indicators)
    (tbl : List (String × ℚ)) (hpos : ∀ p ∈ tbl, 0 < p.2) :
    categoryWeightedScore ind tbl = specWeightedCategoryScore ind tbl := by
  unfold categoryWeightedScore specWeightedCategoryScore
  rw [weightedLoop_spec]
  simp only [zero_add]
  cases hl : presentEntries ind tbl with
  | nil => simp
  | cons q qs =>
    have hmem : ∀ x ∈ ((q :: qs).map Prod.snd), 0 < x := by
      intro x hx
      obtain ⟨r, hr, rfl⟩ := List.mem_map.mp hx
      have hrt : r ∈ tbl := by
        have h2 := hr
        rw [← hl] at h2
        exact List.mem_of_mem_filter h2
      exact hpos r hrt
    have hsum : 0 < ((q :: qs).map Prod.snd).sum :=
      List.sum_pos _ hmem (by simp)
    rw [if_pos hsum]
    simp

/-- When every indicator of the table is absent the loop leaves the
accumulators unchanged. -/
theorem weightedLoop_absent (ind : Indicators) :
    ∀ (tbl : List (String × ℚ)) (n d : ℚ),
      (∀ p ∈ tbl, ind p.1 = none) → weightedLoop ind tbl n d = (n, d) := by
  intro tbl
  induction tbl with
  | nil => intro n d _; rfl
  | cons p rest ih =>
    intro n d h
    obtain ⟨i, w⟩ := p
    have hi : ind i = none := h (i, w) (by simp)
    simp only [weightedLoop, hi]
    exact ih n d fun q hq => h q (by simp [hq])

/-- When every indicator of the table is absent the category score is the
neutral default 50. -/
theorem categoryWeightedScore_absent (ind : Indicators)
    (tbl : List (String × ℚ)) (h : ∀ p ∈ tbl, ind p.1 = none) :
    categoryWeightedScore ind tbl = 50 := by
  unfold categoryWeightedScore
  rw [weightedLoop_absent ind tbl 0 0 h]
  norm_num

/-- When every indicator of the list is absent the simple category score is
the neutral default 50. -/
theorem categorySimpleScore_absent (ind : Indicators) (ids : List String)
    (h : ∀ i ∈ ids, ind i = none) : categorySimpleScore ind ids = 50 := by
  unfold categorySimpleScore
  rw [List.filterMap_eq_nil_iff.mpr h]
  rfl

/-- The category keys of the weighted-average result, in table order. -/
theorem keys_weighted (ind : Indicators) :
    (calculate_weighted_average ind).2.map Prod.fst = CATEGORIES := by
  simp [calculate_weighted_average, INDICATOR_WEIGHTS, CATEGORIES]

/-- The category keys of the simple-average result, in table order. -/
theorem keys_simple (ind : Indicators) :
    (calculate_simple_average ind).2.map Prod.fst = CATEGORIES := by
  simp [calculate_simple_average, CATEGORY_INDICATORS, CATEGORIES]

/-- The regime-adaptive category scores are literally the weighted-average
category scores. -/
theorem regime_scores_eq (ind : Indicators) :
    (calculate_regime_adaptive ind).2 = (calculate_weighted_average ind).2 :=
  rfl

/-- The category keys of the regime-adaptive result. -/
theorem keys_regime (ind : Indicators) :
    (calculate_regime_adaptive ind).2.map Prod.fst = CATEGORIES := by
  rw [regime_scores_eq]; exact keys_weighted ind

/-- The category keys of the time-decay-momentum result. -/
theorem keys_tdm (ind : Indicators) :
    (calculate_time_decay_momentum ind).2.map Prod.fst = CATEGORIES :=
  keys_weighted (timeDecayAdjust ind)

/-- The category keys of the meta-ensemble result. -/
theorem keys_meta (ind : Indicators) :
    (calculate_meta_ensemble ind).2.map Prod.fst = CATEGORIES := by
  unfold calculate_meta_ensemble
  cases detect_market_state ind
  · exact keys_tdm ind
  · exact keys_regime ind
  · exact keys_tdm ind

/-- Looking a category up in the weighted-average result gives the score of
its weight table. -/
theorem catScore_weighted (ind : Indicators) (cat : Category)
    (tbl : List (String × ℚ)) (h : (cat, tbl) ∈ INDICATOR_WEIGHTS) :
    catScore (calculate_weighted_average ind).2 cat
      = categoryWeightedScore ind tbl := by
  simp only [INDICATOR_WEIGHTS, List.mem_cons, List.mem_singleton,
    Prod.mk.injEq, List.not_mem_nil, or_false] at h
  rcases h with ⟨rfl, rfl⟩ | ⟨rfl, rfl⟩ | ⟨rfl, rfl⟩ | ⟨rfl, rfl⟩ | ⟨rfl, rfl⟩ <;>
    simp [catScore, lookupCat, calculate_weighted_average, INDICATOR_WEIGHTS]

/-- Looking a category up in the simple-average result gives the score of
its indicator list. -/
theorem catScore_simple (ind : Indicators) (cat : Category)
    (ids : List String) (h : (cat, ids) ∈ CATEGORY_INDICATORS) :
    catScore (calculate_simple_average ind).2 cat
      = categorySimpleScore ind ids := by
  simp only [CATEGORY_INDICATORS, List.mem_cons, List.mem_singleton,
    Prod.mk.injEq, List.not_mem_nil, or_false] at h
  rcases h with ⟨rfl, rfl⟩ | ⟨rfl, rfl⟩ | ⟨rfl, rfl⟩ | ⟨rfl, rfl⟩ | ⟨rfl, rfl⟩ <;>
    simp [catScore, lookupCat, calculate_simple_average, CATEGORY_INDICATORS]

/-- Every time-decay multiplier is at least 1. -/
theorem one_le_multiplier (v : ℚ) (i : String) :
    1 ≤ calculate_time_decay_multiplier v i := by
  unfold calculate_time_decay_multiplier
  split_ifs <;> norm_num

/-- The capped adjustment never lowers a value that is already in [0, 100]. -/
theorem le_adjustedValue (v : ℚ) (i : String) (h0 : 0 ≤ v) (h1 : v ≤ 100) :
    v ≤ adjustedValue v i := by
  unfold adjustedValue
  refine le_min ?_ h1
  calc v = v * 1 := by ring
    _ ≤ v * calculate_time_decay_multiplier v i :=
        mul_le_mul_of_nonneg_left (one_le_multiplier v i) h0

/-- Pointwise raising the present values (keeping the key set) raises the
numerator of the loop and keeps its denominator. -/
theorem weightedLoop_mono (ind ind2 : Indicators)
    (hle : ∀ i v, ind i = some v → ∃ w, ind2 i = some w ∧ v ≤ w)
    (hnone : ∀ i, ind i = none → ind2 i = none) :
    ∀ (tbl : List (String × ℚ)), (∀ p ∈ tbl, 0 ≤ p.2) → ∀ (n n2 d : ℚ),
      n ≤ n2 →
      (weightedLoop ind tbl n d).1 ≤ (weightedLoop ind2 tbl n2 d).1
        ∧ (weightedLoop ind tbl n d).2 = (weightedLoop ind2 tbl n2 d).2 := by
  intro tbl
  induction tbl with
  | nil => intro _ n n2 d hnn; exact ⟨hnn, rfl⟩
  | cons p rest ih =>
    intro hw n n2 d hnn
    obtain ⟨i, w⟩ := p
    have hw0 : (0 : ℚ) ≤ w := hw (i, w) (by simp)
    have hwrest : ∀ p ∈ rest, (0 : ℚ) ≤ p.2 := fun q hq => hw q (by simp [hq])
    cases hc : ind i with
    | none =>
      have hc2 : ind2 i = none := hnone i hc
      simp only [weightedLoop, hc, hc2]
      exact ih hwrest n n2 d hnn
    | some v =>
      obtain ⟨v2, hv2, hvv⟩ := hle i v hc
      simp only [weightedLoop, hc, hv2]
      refine ih hwrest _ _ _ ?_
      have : v * w ≤ v2 * w := mul_le_mul_of_nonneg_right hvv hw0
      linarith

/-- Pointwise raising the present values never lowers a category score. -/
theorem categoryWeightedScore_mono (ind ind2 : Indicators)
    (hle : ∀ i v, ind i = some v → ∃ w, ind2 i = some w ∧ v ≤ w)
    (hnone : ∀ i, ind i = none → ind2 i = none)
    (tbl : List (String × ℚ)) (hw : ∀ p ∈ tbl, 0 ≤ p.2) :
    categoryWeightedScore ind tbl ≤ categoryWeightedScore ind2 tbl := by
  obtain ⟨h1, h2⟩ :=
    weightedLoop_mono ind ind2 hle hnone tbl hw 0 0 0 le_rfl
  unfold categoryWeightedScore
  rw [← h2]
  split_ifs with h
  · exact div_le_div_of_nonneg_right h1 h.le
  · exact le_rfl

/-- The time-decay adjustment dominates the raw input pointwise (for inputs
within the 0-100 contract) and preserves the key set. -/
theorem timeDecayAdjust_dominates (ind : Indicators)
    (hrange : ∀ i v, ind i = some v → 0 ≤ v ∧ v ≤ 100) :
    (∀ i v, ind i = some v →
        ∃ w, timeDecayAdjust ind i = some w ∧ v ≤ w)
      ∧ ∀ i, ind i = none → timeDecayAdjust ind i = none := by
  constructor
  · intro i v hiv
    refine ⟨adjustedValue v i, by simp [timeDecayAdjust, hiv], ?_⟩
    exact le_adjustedValue v i (hrange i v hiv).1 (hrange i v hiv).2
  · intro i hi
    simp [timeDecayAdjust, hi]

/-- Every weight in every category table is positive. -/
theorem weights_pos (cat : Category) (tbl : List (String × ℚ))
    (h : (cat, tbl) ∈ INDICATOR_WEIGHTS) : ∀ p ∈ tbl, 0 < p.2 := by
  simp only [INDICATOR_WEIGHTS, List.mem_cons, List.not_mem_nil, or_false,
    Prod.mk.injEq] at h
  rcases h with ⟨_, rfl⟩ | ⟨_, rfl⟩ | ⟨_, rfl⟩ | ⟨_, rfl⟩ | ⟨_, rfl⟩ <;>
    · intro p hp
      simp only [liquidityWeights, creditWeights, macroWeights,
        valuationWeights, technicalWeights] at hp
      fin_cases hp <;> norm_num

/-- Each category with its own table is a row of INDICATOR_WEIGHTS. -/
theorem mem_tableOf (c : Category) : (c, tableOf c) ∈ INDICATOR_WEIGHTS := by
  cases c <;> simp [INDICATOR_WEIGHTS, tableOf]

/-! The claims. -/

/-- C1: the Weighted Average strategy computes each category score as
sum(value * weight) over the indicators present in both the input and that
category's table divided by sum(weight) over those indicators (absent
indicators skipped) with default 50.0 when none is present, and the input
containing only M2SL = 80 gives liquidity exactly 80.0. -/
theorem C1_weighted_average_formula :
    (∀ (ind : Indicators) (cat : Category) (tbl : List (String × ℚ)),
        (cat, tbl) ∈ INDICATOR_WEIGHTS →
        catScore (calculate_weighted_average ind).2 cat
          = specWeightedCategoryScore ind tbl)
    ∧ catScore (calculate_weighted_average m2slOnly).2 Category.liquidity
      = 80 := by
  constructor
  · intro ind cat tbl h
    rw [catScore_weighted ind cat tbl h]
    exact categoryWeightedScore_eq_spec ind tbl (weights_pos cat tbl h)
  · rw [catScore_weighted m2slOnly Category.liquidity liquidityWeights
      (by simp [INDICATOR_WEIGHTS])]
    simp +decide [categoryWeightedScore, weightedLoop, liquidityWeights,
      m2slOnly]
    norm_num

/-- Witness for C1 at the concrete input with only M2SL = 80 and the
liquidity table. -/
theorem C1_weighted_average_formula_witness :
    ((Category.liquidity, liquidityWeights) ∈ INDICATOR_WEIGHTS)
    ∧ catScore (calculate_weighted_average m2slOnly).2 Category.liquidity
      = specWeightedCategoryScore m2slOnly liquidityWeights :=
  ⟨by simp [INDICATOR_WEIGHTS],
   C1_weighted_average_formula.1 m2slOnly Category.liquidity liquidityWeights
     (by simp [INDICATOR_WEIGHTS])⟩

/-- C2: the Time-Decay Momentum strategy replaces each value v by
min(v * m, 100.0) with the banded multiplier m (bands as stated for VIXCLS,
m = 1 for every indicator outside the four momentum-sensitive ids) and then
applies the Weighted Average strategy; VIXCLS 45 adjusts to 67.5 and
VIXCLS 65 adjusts to 84.5. -/
theorem C2_time_decay_adjustment :
    (∀ ind : Indicators, calculate_time_decay_momentum ind
        = calculate_weighted_average fun i => (ind i).map fun v =>
            min (v * calculate_time_decay_multiplier v i) 100)
    ∧ (∀ v : ℚ, calculate_time_decay_multiplier v "VIXCLS"
        = specVIXMultiplier v)
    ∧ (∀ (i : String) (v : ℚ), i ≠ "VIXCLS" → i ≠ "YIELD_CURVE" →
        i ≠ "SAHM_RULE" → i ≠ "BAMLH0A0HYM2" →
        calculate_time_decay_multiplier v i = 1)
    ∧ adjustedValue 45 "VIXCLS" = 67.5
    ∧ adjustedValue 65 "VIXCLS" = 84.5 := by
  refine ⟨fun ind => rfl, ?_, ?_, ?_, ?_⟩
  · intro v
    unfold calculate_time_decay_multiplier specVIXMultiplier
    by_cases h60 : v > 60
    · simp +decide [h60]
    · by_cases h40 : v > 40
      · have hc : 40 < v ∧ v ≤ 60 := ⟨h40, by linarith⟩
        simp +decide [h60, h40, hc]
      · have hnc : ¬(40 < v ∧ v ≤ 60) := fun hc => h40 hc.1
        by_cases h30 : v > 30
        · have hc2 : 30 < v ∧ v ≤ 40 := ⟨h30, by linarith⟩
          simp +decide [h60, h40, h30, hnc, hc2]
        · have hnc2 : ¬(30 < v ∧ v ≤ 40) := fun hc => h30 hc.1
          simp +decide [h60, h40, h30, hnc, hnc2]
          norm_num
  · intro i v h1 h2 h3 h4
    norm_num [calculate_time_decay_multiplier, h1, h2, h3, h4]
  · norm_num [adjustedValue, calculate_time_decay_multiplier]
  · norm_num [adjustedValue, calculate_time_decay_multiplier]

/-- Witness for C2 at the non-momentum indicator DGS10. -/
theorem C2_time_decay_adjustment_witness :
    (("DGS10" : String) ≠ "VIXCLS" ∧ ("DGS10" : String) ≠ "YIELD_CURVE"
      ∧ ("DGS10" : String) ≠ "SAHM_RULE"
      ∧ ("DGS10" : String) ≠ "BAMLH0A0HYM2")
    ∧ calculate_time_decay_multiplier 87 "DGS10" = 1 :=
  ⟨⟨by decide, by decide, by decide, by decide⟩,
   C2_time_decay_adjustment.2.2.1 "DGS10" 87 (by decide) (by decide)
     (by decide) (by decide)⟩

/-- C3: Meta-Ensemble returns exactly the Regime-Adaptive result when the
market-state classifier says calm, and exactly the Time-Decay Momentum
result when it says crisis or normal. -/
theorem C3_meta_ensemble_delegates :
    ∀ ind : Indicators,
      (detect_market_state ind = MarketState.calm →
        calculate_meta_ensemble ind = calculate_regime_adaptive ind)
      ∧ (detect_market_state ind = MarketState.crisis ∨
          detect_market_state ind = MarketState.normal →
        calculate_meta_ensemble ind = calculate_time_decay_momentum ind) := by
  intro ind
  unfold calculate_meta_ensemble
  cases h : detect_market_state ind <;> simp [h]

/-- Witness for C3 at the all-10 input, which classifies as calm. -/
theorem C3_meta_ensemble_delegates_witness :
    detect_market_state stateEx2 = MarketState.calm
    ∧ calculate_meta_ensemble stateEx2 = calculate_regime_adaptive stateEx2 :=
  ⟨by decide, (C3_meta_ensemble_delegates stateEx2).1 (by decide)⟩

/-- C4: the market-state classifier accumulates the crisis score with the
stated defaults, thresholds and points, returns crisis iff the score is at
least 3, calm iff the score is at most 1 and volatility is below 20,
otherwise normal; the two concrete example inputs classify as crisis and
calm. -/
theorem C4_market_state_classifier :
    (∀ ind : Indicators,
      crisisScore ind = specCrisisScore ind
      ∧ (detect_market_state ind = MarketState.crisis ↔
          3 ≤ specCrisisScore ind)
      ∧ (detect_market_state ind = MarketState.calm ↔
          specCrisisScore ind ≤ 1 ∧ (ind "VIXCLS").getD 25.0 < 20)
      ∧ (detect_market_state ind = MarketState.normal ↔
          ¬3 ≤ specCrisisScore ind
          ∧ ¬(specCrisisScore ind ≤ 1 ∧ (ind "VIXCLS").getD 25.0 < 20)))
    ∧ detect_market_state stateEx1 = MarketState.crisis
    ∧ detect_market_state stateEx2 = MarketState.calm := by
  refine ⟨?_, by decide, by decide⟩
  intro ind
  have hcs : crisisScore ind = specCrisisScore ind := rfl
  refine ⟨hcs, ?_, ?_, ?_⟩
  · simp only [detect_market_state, ← hcs]
    split_ifs with h1 h2 <;> simp [h1]
  · simp only [detect_market_state, ← hcs]
    split_ifs with h1 h2
    · constructor
      · intro hx
        simp at hx
      · rintro ⟨ha, _⟩
        exact absurd h1 (by omega)
    · simp [h2]
    · simp [h2]
  · simp only [detect_market_state, ← hcs]
    split_ifs with h1 h2
    · simp [h1]
    · simp [h1, h2]
    · simp [h1, h2]

/-- C5: the market-regime classifier applies the stated ordered rules with
first match winning over the stated defaults, and any input carrying
VIXCLS above 40 classifies as crisis regardless of the rest. -/
theorem C5_market_regime_classifier :
    ∀ ind : Indicators,
      (detect_market_regime ind = MarketRegime.crisis ↔
        (ind "VIXCLS").getD 25.0 > 40 ∨ (ind "BAMLH0A0HYM2").getD 35.0 > 60)
      ∧ (detect_market_regime ind = MarketRegime.bear_market ↔
        ¬((ind "VIXCLS").getD 25.0 > 40
            ∨ (ind "BAMLH0A0HYM2").getD 35.0 > 60)
          ∧ (ind "YIELD_CURVE").getD 20.0 > 50
            ∧ (ind "BAMLH0A0HYM2").getD 35.0 > 40)
      ∧ (detect_market_regime ind = MarketRegime.bubble ↔
        ¬((ind "VIXCLS").getD 25.0 > 40
            ∨ (ind "BAMLH0A0HYM2").getD 35.0 > 60)
          ∧ ¬((ind "YIELD_CURVE").getD 20.0 > 50
            ∧ (ind "BAMLH0A0HYM2").getD 35.0 > 40)
          ∧ (ind "NCBEILQ027S").getD 70.0 > 80
            ∧ (ind "VIXCLS").getD 25.0 < 20)
      ∧ (detect_market_regime ind = MarketRegime.calm ↔
        ¬((ind "VIXCLS").getD 25.0 > 40
            ∨ (ind "BAMLH0A0HYM2").getD 35.0 > 60)
          ∧ ¬((ind "YIELD_CURVE").getD 20.0 > 50
            ∧ (ind "BAMLH0A0HYM2").getD 35.0 > 40)
          ∧ ¬((ind "NCBEILQ027S").getD 70.0 > 80
            ∧ (ind "VIXCLS").getD 25.0 < 20)
          ∧ (ind "VIXCLS").getD 25.0 < 20
            ∧ (ind "BAMLH0A0HYM2").getD 35.0 < 35)
      ∧ (detect_market_regime ind = MarketRegime.normal ↔
        ¬((ind "VIXCLS").getD 25.0 > 40
            ∨ (ind "BAMLH0A0HYM2").getD 35.0 > 60)
          ∧ ¬((ind "YIELD_CURVE").getD 20.0 > 50
            ∧ (ind "BAMLH0A0HYM2").getD 35.0 > 40)
          ∧ ¬((ind "NCBEILQ027S").getD 70.0 > 80
            ∧ (ind "VIXCLS").getD 25.0 < 20)
          ∧ ¬((ind "VIXCLS").getD 25.0 < 20
            ∧ (ind "BAMLH0A0HYM2").getD 35.0 < 35))
      ∧ (∀ v : ℚ, ind "VIXCLS" = some v → v > 40 →
          detect_market_regime ind = MarketRegime.crisis) := by
  intro ind
  have hlast : ∀ v : ℚ, ind "VIXCLS" = some v → v > 40 →
      detect_market_regime ind = MarketRegime.crisis := by
    intro v hv h40
    simp only [detect_market_regime, hv, Option.getD_some]
    rw [if_pos (Or.inl h40)]
  refine ⟨?_, ?_, ?_, ?_, ?_, hlast⟩ <;>
    · simp only [detect_market_regime]
      split_ifs <;> simp_all

/-- Witness for C5 at the input carrying only VIXCLS = 45. -/
theorem C5_market_regime_classifier_witness :
    vixOnly45 "VIXCLS" = some 45 ∧ (45 : ℚ) > 40
    ∧ detect_market_regime vixOnly45 = MarketRegime.crisis :=
  ⟨rfl, by norm_num,
   (C5_market_regime_classifier vixOnly45).2.2.2.2.2 45 rfl (by norm_num)⟩

/-- C6: Regime-Adaptive produces the Weighted Average category scores, its
overall score is the regime-weighted sum of the category scores, and every
regime row of the category-weight table sums to exactly 1. -/
theorem C6_regime_adaptive :
    (∀ ind : Indicators,
      (calculate_regime_adaptive ind).2 = (calculate_weighted_average ind).2
      ∧ (calculate_regime_adaptive ind).1
        = (CATEGORIES.map fun c =>
            catScore (calculate_regime_adaptive ind).2 c
              * REGIME_CATEGORY_WEIGHTS (detect_market_regime ind) c).sum)
    ∧ ∀ r : MarketRegime,
        (CATEGORIES.map (REGIME_CATEGORY_WEIGHTS r)).sum = 1 := by
  constructor
  · intro ind
    refine ⟨rfl, ?_⟩
    simp [calculate_regime_adaptive, INDICATOR_WEIGHTS, CATEGORIES, catScore,
      lookupCat]
  · intro r
    cases r <;> norm_num [CATEGORIES, REGIME_CATEGORY_WEIGHTS]

/-- C7: the batch entry point always returns exactly the five method names
in order; a method whose call raises gets the Weighted Average result in its
slot while every other method still gets its own result, and the batch
itself is total. -/
theorem C7_batch_isolation :
    (∀ ind : Indicators,
      (calculate_all_methods ind).map Prod.fst = METHOD_NAMES)
    ∧ (∀ (impl : String → Indicators → Option RiskResult) (ind : Indicators),
        (calculate_all_methods_with impl ind).map Prod.fst = METHOD_NAMES)
    ∧ (∀ (impl : String → Indicators → Option RiskResult) (ind : Indicators)
        (m : String), m ∈ METHOD_NAMES → impl m ind = none →
        lookupMethod (calculate_all_methods_with impl ind) m
          = some (calculate_weighted_average ind))
    ∧ (∀ (impl : String → Indicators → Option RiskResult) (ind : Indicators)
        (m : String) (r : RiskResult), m ∈ METHOD_NAMES → impl m ind = some r →
        lookupMethod (calculate_all_methods_with impl ind) m = some r) := by
  refine ⟨?_, ?_, ?_, ?_⟩
  · intro ind
    simp [calculate_all_methods, calculate_all_methods_with, METHOD_NAMES]
  · intro impl ind
    simp [calculate_all_methods_with, METHOD_NAMES]
  · intro impl ind m hm hfail
    simp only [METHOD_NAMES, List.mem_cons, List.not_mem_nil, or_false] at hm
    rcases hm with rfl | rfl | rfl | rfl | rfl <;>
      simp +decide [calculate_all_methods_with, METHOD_NAMES, lookupMethod,
        hfail]
  · intro impl ind m r hm hr
    simp only [METHOD_NAMES, List.mem_cons, List.not_mem_nil, or_false] at hm
    rcases hm with rfl | rfl | rfl | rfl | rfl <;>
      simp +decide [calculate_all_methods_with, METHOD_NAMES, lookupMethod,
        hr]

/-- Witness for C7: a table in which regime_adaptive raises makes the batch
fill that slot with the Weighted Average result. -/
theorem C7_batch_isolation_witness :
    (("regime_adaptive" ∈ METHOD_NAMES)
      ∧ failImpl "regime_adaptive" emptyInd = none)
    ∧ lookupMethod (calculate_all_methods_with failImpl emptyInd)
        "regime_adaptive" = some (calculate_weighted_average emptyInd) :=
  ⟨⟨by decide, rfl⟩,
   C7_batch_isolation.2.2.1 failImpl emptyInd "regime_adaptive" (by decide)
     rfl⟩

/-- C8: the single-method entry point is total, always returns the five
categories, and maps every unrecognized method name to exactly the
Time-Decay Momentum result. -/
theorem C8_single_method_dispatch :
    ∀ (ind : Indicators) (method : String),
      ((calculate_risk_score ind method).2.map Prod.fst = CATEGORIES)
      ∧ (method ∉ METHOD_NAMES →
          calculate_risk_score ind method
            = calculate_time_decay_momentum ind) := by
  intro ind method
  constructor
  · unfold calculate_risk_score
    split_ifs <;> first
      | exact keys_simple ind
      | exact keys_weighted ind
      | exact keys_tdm ind
      | exact keys_regime ind
      | exact keys_meta ind
  · intro h
    simp only [METHOD_NAMES, List.mem_cons, List.not_mem_nil, or_false,
      not_or] at h
    obtain ⟨h1, h2, h3, h4, h5⟩ := h
    simp [calculate_risk_score, h1, h2, h3, h4, h5]

/-- Witness for C8 at the unrecognized method name "bogus". -/
theorem C8_single_method_dispatch_witness :
    ("bogus" ∉ METHOD_NAMES)
    ∧ calculate_risk_score emptyInd "bogus"
      = calculate_time_decay_momentum emptyInd :=
  ⟨by decide, (C8_single_method_dispatch emptyInd "bogus").2 (by decide)⟩

/-- C9: every strategy returns exactly the five categories for every input
(the empty mapping included), and a category whose indicators are all
absent scores exactly 50. -/
theorem C9_category_totality :
    ∀ ind : Indicators,
      ((calculate_simple_average ind).2.map Prod.fst = CATEGORIES
        ∧ (calculate_weighted_average ind).2.map Prod.fst = CATEGORIES
        ∧ (calculate_time_decay_momentum ind).2.map Prod.fst = CATEGORIES
        ∧ (calculate_regime_adaptive ind).2.map Prod.fst = CATEGORIES
        ∧ (calculate_meta_ensemble ind).2.map Prod.fst = CATEGORIES)
      ∧ (∀ (cat : Category) (ids : List String),
          (cat, ids) ∈ CATEGORY_INDICATORS → (∀ i ∈ ids, ind i = none) →
          catScore (calculate_simple_average ind).2 cat = 50)
      ∧ (∀ (cat : Category) (tbl : List (String × ℚ)),
          (cat, tbl) ∈ INDICATOR_WEIGHTS → (∀ p ∈ tbl, ind p.1 = none) →
          catScore (calculate_weighted_average ind).2 cat = 50
          ∧ catScore (calculate_time_decay_momentum ind).2 cat = 50
          ∧ catScore (calculate_regime_adaptive ind).2 cat = 50
          ∧ catScore (calculate_meta_ensemble ind).2 cat = 50) := by
  intro ind
  refine ⟨⟨keys_simple ind, keys_weighted ind, keys_tdm ind, keys_regime ind,
    keys_meta ind⟩, ?_, ?_⟩
  · intro cat ids hmem habs
    rw [catScore_simple ind cat ids hmem]
    exact categorySimpleScore_absent ind ids habs
  · intro cat tbl hmem habs
    have habs2 : ∀ p ∈ tbl, timeDecayAdjust ind p.1 = none := by
      intro p hp
      simp [timeDecayAdjust, habs p hp]
    have hwa : catScore (calculate_weighted_average ind).2 cat = 50 := by
      rw [catScore_weighted ind cat tbl hmem]
      exact categoryWeightedScore_absent ind tbl habs
    have htd : catScore (calculate_time_decay_momentum ind).2 cat = 50 := by
      show catScore
        (calculate_weighted_average (timeDecayAdjust ind)).2 cat = 50
      rw [catScore_weighted (timeDecayAdjust ind) cat tbl hmem]
      exact categoryWeightedScore_absent (timeDecayAdjust ind) tbl habs2
    have hra : catScore (calculate_regime_adaptive ind).2 cat = 50 := by
      rw [regime_scores_eq]
      exact hwa
    have hme : catScore (calculate_meta_ensemble ind).2 cat = 50 := by
      unfold calculate_meta_ensemble
      cases detect_market_state ind
      · exact htd
      · exact hra
      · exact htd
    exact ⟨hwa, htd, hra, hme⟩

/-- Witness for C9 at the empty mapping and the liquidity category. -/
theorem C9_category_totality_witness :
    ((Category.liquidity, liquidityWeights) ∈ INDICATOR_WEIGHTS
      ∧ ∀ p ∈ liquidityWeights, emptyInd p.1 = none)
    ∧ catScore (calculate_weighted_average emptyInd).2 Category.liquidity = 50
    ∧ catScore (calculate_time_decay_momentum emptyInd).2 Category.liquidity
      = 50
    ∧ catScore (calculate_regime_adaptive emptyInd).2 Category.liquidity = 50
    ∧ catScore (calculate_meta_ensemble emptyInd).2 Category.liquidity
      = 50 :=
  ⟨⟨by simp [INDICATOR_WEIGHTS], fun p _ => rfl⟩,
   (C9_category_totality emptyInd).2.2 Category.liquidity liquidityWeights
     (by simp [INDICATOR_WEIGHTS]) (fun p _ => rfl)⟩

/-- C10: on inputs within the 0-100 contract, every category score and the
overall score of Time-Decay Momentum dominate those of Weighted Average. -/
theorem C10_time_decay_dominates (ind : Indicators)
    (hrange : ∀ i v, ind i = some v → 0 ≤ v ∧ v ≤ 100) :
    (∀ c : Category, catScore (calculate_weighted_average ind).2 c
        ≤ catScore (calculate_time_decay_momentum ind).2 c)
    ∧ (calculate_weighted_average ind).1
      ≤ (calculate_time_decay_momentum ind).1 := by
  obtain ⟨hle, hnone⟩ := timeDecayAdjust_dominates ind hrange
  have hcat : ∀ c : Category,
      categoryWeightedScore ind (tableOf c)
        ≤ categoryWeightedScore (timeDecayAdjust ind) (tableOf c) := by
    intro c
    exact categoryWeightedScore_mono ind (timeDecayAdjust ind) hle hnone
      (tableOf c) (fun p hp => (weights_pos c (tableOf c) (mem_tableOf c) p hp).le)
  constructor
  · intro c
    rw [show (calculate_time_decay_momentum ind).2
        = (calculate_weighted_average (timeDecayAdjust ind)).2 from rfl,
      catScore_weighted ind c (tableOf c) (mem_tableOf c),
      catScore_weighted (timeDecayAdjust ind) c (tableOf c) (mem_tableOf c)]
    exact hcat c
  · have h1 := hcat Category.liquidity
    have h2 := hcat Category.credit
    have h3 := hcat Category.macroCat
    have h4 := hcat Category.valuation
    have h5 := hcat Category.technical
    simp only [tableOf] at h1 h2 h3 h4 h5
    show (calculate_weighted_average ind).1
      ≤ (calculate_weighted_average (timeDecayAdjust ind)).1
    simp only [calculate_weighted_average, INDICATOR_WEIGHTS, List.map_cons,
      List.map_nil, List.sum_cons, List.sum_nil, List.length_cons,
      List.length_nil]
    push_cast
    linarith

/-- Witness for C10 at the in-range input carrying only VIXCLS = 45. -/
theorem C10_time_decay_dominates_witness :
    (∀ i v, vixOnly45 i = some v → 0 ≤ v ∧ v ≤ 100)
    ∧ (calculate_weighted_average vixOnly45).1
      ≤ (calculate_time_decay_momentum vixOnly45).1 := by
  have hr : ∀ i v, vixOnly45 i = some v → 0 ≤ v ∧ v ≤ 100 := by
    intro i v h
    unfold vixOnly45 at h
    by_cases hi : i = "VIXCLS"
    · rw [if_pos hi] at h
      obtain rfl : (45 : ℚ) = v := Option.some.inj h
      norm_num
    · rw [if_neg hi] at h
      exact absurd h (by simp)
  exact ⟨hr, (C10_time_decay_dominates vixOnly45 hr).2⟩

end Risk29
